import Mathlib

/-!
Shallow embedding of the in-memory banking ledger engine
(`src/Shivani/banking_system_impl.py`, the most complete of the repository's
near-duplicate variants, and the one the frozen claims cite first).

State is a pair of an insertion-ordered association list of accounts
(modelling the Python `dict`) and the global payment counter.  A transaction
is a Python dict whose optional keys (`related_payment`, `deposited`,
`merged_from`, `merged_at`) are modelled as `Option`/defaulted fields; the
write-only `target`/`source` annotations of transfer records (never read by
any operation) are omitted.  Every operation returns its Python result
together with the post-state.
-/

/-- A transaction record, as stored in an account's `transactions` list. -/
structure Txn where
  timestamp : Int
  operation : String
  amount : Int
  relatedPayment : Option String := none
  deposited : Bool := false
  mergedFrom : Option String := none
  mergedAt : Option Int := none
deriving DecidableEq, Repr

/-- An account: cached balance, append-only log, creation time, and the
optional `merged_at` marker (present exactly when the account is merged-away). -/
structure Account where
  balance : Int
  transactions : List Txn
  creationTime : Int
  mergedAt : Option Int := none
deriving DecidableEq, Repr

/-- Whole engine state: the `accounts` dict (insertion-ordered association
list) and the process-wide `payment_counter`. -/
structure BankState where
  accounts : List (String × Account)
  paymentCounter : Nat
deriving DecidableEq, Repr

/-- Initial engine state: no accounts, payment counter 1. -/
def initState : BankState := ⟨[], 1⟩

/-- Dictionary lookup on the association list. -/
def getAcc : List (String × Account) → String → Option Account
  | [], _ => none
  | (k, v) :: rest, aid => if k = aid then some v else getAcc rest aid

/-- Dictionary write: update in place if the key is present (preserving
insertion order), else append, exactly as a Python dict assignment. -/
def updAcc : List (String × Account) → String → Account → List (String × Account)
  | [], aid, a => [(aid, a)]
  | (k, v) :: rest, aid, a =>
      if k = aid then (aid, a) :: rest else (k, v) :: updAcc rest aid a

/-- Python's `op.startswith("payment")`, computed on the character data so
that it reduces in the kernel. -/
def opIsPayment (s : String) : Bool :=
  "payment".data.isPrefixOf s.data

/-- One pass of `_process_cashbacks` over a transaction list at logical time
`t`: flips `deposited` on every due, not-yet-deposited cashback record and
returns the updated list together with the total amount credited. -/
def drainList (t : Int) : List Txn → List Txn × Int
  | [] => ([], 0)
  | tr :: rest =>
    let p := drainList t rest
    if tr.operation = "cashback" ∧ tr.timestamp ≤ t ∧ tr.deposited = false then
      ({ tr with deposited := true } :: p.1, p.2 + tr.amount)
    else
      (tr :: p.1, p.2)

/-- The per-record effect of a drain at time `t` (flag flip on due cashback). -/
def markDue (t : Int) (tr : Txn) : Txn :=
  if tr.operation = "cashback" ∧ tr.timestamp ≤ t ∧ tr.deposited = false then
    { tr with deposited := true }
  else tr

/-- `_process_cashbacks` restricted to one account: merged-away accounts are
skipped, an active account has its due cashback credited and flagged. -/
def processAccount (t : Int) (a : Account) : Account :=
  if a.mergedAt.isSome then a
  else
    { a with balance := a.balance + (drainList t a.transactions).2,
             transactions := (drainList t a.transactions).1 }

/-- `_process_cashbacks(timestamp)`: lazily drain every active account. -/
def processCashbacks (t : Int) (s : BankState) : BankState :=
  { s with accounts := s.accounts.map (fun p => (p.1, processAccount t p.2)) }

/-- `create_account(timestamp, account_id)`.  Note: this operation performs
no cashback drain in the source.  An existing active id fails; a merged-away
id is overwritten by a fresh account. -/
def createAccount (t : Int) (aid : String) (s : BankState) : Bool × BankState :=
  match getAcc s.accounts aid with
  | some acc =>
    if acc.mergedAt.isNone then (false, s)
    else (true, { s with accounts := updAcc s.accounts aid ⟨0, [], t, none⟩ })
  | none => (true, { s with accounts := updAcc s.accounts aid ⟨0, [], t, none⟩ })

/-- `deposit(timestamp, account_id, amount)`. -/
def deposit (t : Int) (aid : String) (amount : Int) (s : BankState) :
    Option Int × BankState :=
  let s := processCashbacks t s
  match getAcc s.accounts aid with
  | none => (none, s)
  | some acc =>
    if acc.mergedAt.isSome then (none, s)
    else
      let acc' := { acc with
        balance := acc.balance + amount,
        transactions := acc.transactions ++ [⟨t, "deposit", amount, none, false, none, none⟩] }
      (some acc'.balance, { s with accounts := updAcc s.accounts aid acc' })

/-- `transfer(timestamp, source_account_id, target_account_id, amount)`. -/
def transfer (t : Int) (srcId tgtId : String) (amount : Int) (s : BankState) :
    Option Int × BankState :=
  let s := processCashbacks t s
  match getAcc s.accounts srcId, getAcc s.accounts tgtId with
  | some src, some tgt =>
    if srcId = tgtId then (none, s)
    else if src.mergedAt.isSome ∨ tgt.mergedAt.isSome then (none, s)
    else if src.balance < amount then (none, s)
    else
      let src' := { src with
        balance := src.balance - amount,
        transactions := src.transactions ++ [⟨t, "transfer_out", amount, none, false, none, none⟩] }
      let tgt' := { tgt with
        balance := tgt.balance + amount,
        transactions := tgt.transactions ++ [⟨t, "transfer_in", amount, none, false, none, none⟩] }
      (some src'.balance,
       { s with accounts := updAcc (updAcc s.accounts srcId src') tgtId tgt' })
  | _, _ => (none, s)

/-- Total outgoing amount of an account (transfer-out plus payments). -/
def outgoingTotal (trs : List Txn) : Int :=
  trs.foldl (fun acc tr =>
    if tr.operation = "transfer_out" ∨ opIsPayment tr.operation then
      acc + tr.amount
    else acc) 0

/-- Python tuple comparison on `(-total, id)` used by `spenders.sort()`. -/
def spenderLe (a b : Int × String) : Bool :=
  decide (a.1 < b.1) || (decide (a.1 = b.1) && !decide (b.2 < a.2))

/-- `top_spenders(timestamp, n)`. -/
def topSpenders (t : Int) (n : Nat) (s : BankState) : List String × BankState :=
  let s := processCashbacks t s
  let spenders := (s.accounts.filter (fun p => p.2.mergedAt.isNone)).map
      (fun p => (-(outgoingTotal p.2.transactions), p.1))
  let sorted := spenders.mergeSort spenderLe
  ((sorted.take n).map (fun q => q.2 ++ "(" ++ toString (-q.1) ++ ")"), s)

/-- `pay(timestamp, account_id, amount)`.  The cashback amount in the source
is `int(amount * 0.02)` — a double-precision product truncated toward zero —
modelled here by the exact truncating division `Int.tdiv (amount * 2) 100`;
the two coincide for every `amount` of magnitude below `2 ^ 53` and diverge
above it (see claim C7). -/
def pay (t : Int) (aid : String) (amount : Int) (s : BankState) :
    Option String × BankState :=
  let s := processCashbacks t s
  match getAcc s.accounts aid with
  | none => (none, s)
  | some acc =>
    if acc.mergedAt.isSome then (none, s)
    else if acc.balance < amount then (none, s)
    else
      let paymentId := "payment" ++ toString s.paymentCounter
      let acc' := { acc with
        balance := acc.balance - amount,
        transactions := acc.transactions ++
          [⟨t, paymentId, amount, none, false, none, none⟩,
           ⟨t + 86400000, "cashback", Int.tdiv (amount * 2) 100,
            some paymentId, false, none, none⟩] }
      (some paymentId,
       { s with accounts := updAcc s.accounts aid acc',
                paymentCounter := s.paymentCounter + 1 })

/-- `get_payment_status(timestamp, account_id, payment)`. -/
def getPaymentStatus (t : Int) (aid : String) (payment : String) (s : BankState) :
    Option String × BankState :=
  let s := processCashbacks t s
  match getAcc s.accounts aid with
  | none => (none, s)
  | some acc =>
    if acc.mergedAt.isSome then (none, s)
    else
      let paymentFound := acc.transactions.any (fun tr => tr.operation == payment)
      let cashbackDeposited := acc.transactions.any (fun tr =>
        tr.operation == "cashback" && tr.relatedPayment == some payment && tr.deposited)
      if !paymentFound then (none, s)
      else (some (if cashbackDeposited then "CASHBACK_RECEIVED" else "IN_PROGRESS"), s)

/-- `merge_accounts(timestamp, account_id_1, account_id_2)`: the survivor
absorbs the donor's balance and receives provenance-tagged copies of the
donor's records; the donor is soft-deleted via `merged_at`. -/
def mergeAccounts (t : Int) (aid1 aid2 : String) (s : BankState) :
    Bool × BankState :=
  let s := processCashbacks t s
  if aid1 = aid2 then (false, s)
  else
    match getAcc s.accounts aid1, getAcc s.accounts aid2 with
    | some a1, some a2 =>
      if a1.mergedAt.isSome ∨ a2.mergedAt.isSome then (false, s)
      else
        let copies := a2.transactions.map
          (fun tr => { tr with mergedFrom := some aid2, mergedAt := some t })
        let a1' := { a1 with
          balance := a1.balance + a2.balance,
          transactions := a1.transactions ++ copies }
        let a2' := { a2 with mergedAt := some t }
        (true, { s with accounts := updAcc (updAcc s.accounts aid1 a1') aid2 a2' })
    | _, _ => (false, s)

/-- Visibility filter of the point-in-time fold in `get_balance`: a record
counts when its timestamp is at or before `asOf` and, if it carries a merge
provenance tag, the merge is also at or before `asOf`. -/
def trCounts (asOf : Int) (tr : Txn) : Bool :=
  decide (tr.timestamp ≤ asOf) &&
    (match tr.mergedAt with
     | some m => decide (m ≤ asOf)
     | none => true)

/-- Accounting table of `get_balance`: deposits, transfers-in and cashback
add, transfers-out and payments subtract.  The `deposited` flag is not
consulted. -/
def trDelta (tr : Txn) : Int :=
  if tr.operation = "deposit" then tr.amount
  else if tr.operation = "transfer_in" then tr.amount
  else if tr.operation = "transfer_out" then -tr.amount
  else if opIsPayment tr.operation then -tr.amount
  else if tr.operation = "cashback" then tr.amount
  else 0

/-- The balance fold of `get_balance` over a transaction list. -/
def foldBalance (asOf : Int) (trs : List Txn) : Int :=
  (trs.filter (trCounts asOf)).foldl (fun b tr => b + trDelta tr) 0

/-- `get_balance(timestamp, account_id, time_at)`. -/
def getBalance (t : Int) (aid : String) (timeAt : Int) (s : BankState) :
    Option Int × BankState :=
  let s := processCashbacks t s
  match getAcc s.accounts aid with
  | none => (none, s)
  | some acc =>
    if acc.creationTime > timeAt then (none, s)
    else
      match acc.mergedAt with
      | some m =>
          if timeAt ≥ m then (none, s)
          else (some (foldBalance timeAt acc.transactions), s)
      | none => (some (foldBalance timeAt acc.transactions), s)

/-- A public operation together with its arguments, for whole-trace
reasoning. -/
inductive Oper where
  | create (t : Int) (aid : String)
  | dep (t : Int) (aid : String) (amount : Int)
  | xfer (t : Int) (src tgt : String) (amount : Int)
  | top (t : Int) (n : Nat)
  | payO (t : Int) (aid : String) (amount : Int)
  | status (t : Int) (aid : String) (ref : String)
  | merge (t : Int) (aid1 aid2 : String)
  | balQ (t : Int) (aid : String) (asOf : Int)
deriving DecidableEq, Repr

/-- State transition of one public operation (its result discarded). -/
def step (s : BankState) : Oper → BankState
  | .create t aid => (createAccount t aid s).2
  | .dep t aid amount => (deposit t aid amount s).2
  | .xfer t src tgt amount => (transfer t src tgt amount s).2
  | .top t n => (topSpenders t n s).2
  | .payO t aid amount => (pay t aid amount s).2
  | .status t aid ref => (getPaymentStatus t aid ref s).2
  | .merge t aid1 aid2 => (mergeAccounts t aid1 aid2 s).2
  | .balQ t aid asOf => (getBalance t aid asOf s).2

/-- Run a trace of public operations from a state. -/
def runOps (s : BankState) : List Oper → BankState
  | [] => s
  | o :: rest => runOps (step s o) rest

/-- Number of successful `pay` operations in a trace started at `s`. -/
def countPays (s : BankState) : List Oper → Nat
  | [] => 0
  | o :: rest =>
    (match o with
     | .payO t aid amount => if (pay t aid amount s).1.isSome then 1 else 0
     | _ => 0) + countPays (step s o) rest

/-- The pure value computed by `get_balance` (its first component), separated
from the lazy drain: resolution by creation time and merge status, then the
point-in-time fold. -/
def balanceView (aid : String) (asOf : Int) (s : BankState) : Option Int :=
  match getAcc s.accounts aid with
  | none => none
  | some acc =>
    if acc.creationTime > asOf then none
    else
      match acc.mergedAt with
      | some m =>
          if asOf ≥ m then none
          else some (foldBalance asOf acc.transactions)
      | none => some (foldBalance asOf acc.transactions)

/-- A tiny concrete state used by the counterexamples: one active account
`"A"` holding an undeposited cashback record due at time 5, with cached
balance 100 and payment counter 2. -/
def cexState : BankState :=
  ⟨[("A", ⟨100, [⟨5, "cashback", 7, some "payment1", false, none, none⟩], 1, none⟩)], 2⟩

/-- Concrete trace used by claims about a pending cashback crossing a merge:
`A` and `B` are created, `B` receives 2000 and pays all of it (reference
`"payment1"`, cashback 40 due at `4 + 86400000 = 86400004`), and `B` is then
merged into `A` at time 9 while the cashback is still pending. -/
def mergeScenario : BankState :=
  runOps initState
    [.create 1 "A", .create 2 "B", .dep 3 "B" 2000, .payO 4 "B" 2000, .merge 9 "A" "B"]

/-- The same engine state as `mergeScenario`, with the pending cashback
drained (as of its due time). -/
def mergeScenarioDrained : BankState := processCashbacks 86400004 mergeScenario

/-- The pre-merge prefix of `mergeScenario`, used to query the donor's
history across a merge. -/
def preMergeState : BankState :=
  runOps initState [.create 1 "A", .create 2 "B", .dep 3 "B" 2000, .payO 4 "B" 2000]

/-- Concrete trace for the `asOf > now` balance query: `X` deposits 1000 and
pays 300 at time 3, so an undeposited cashback of 6 is due at `86400003`. -/
def cexTrace : BankState :=
  runOps initState [.create 1 "X", .dep 2 "X" 1000, .payO 3 "X" 300]

-- Sanity checks: the embedding reproduces the specification's two worked
-- scenarios (asserted by the repository's own test script) step by step.

example :
    let s1 := (createAccount 1 "account1" initState).2
    let s2 := (deposit 3 "account1" 2000 s1).2
    let s3 := (createAccount 2 "account2" s2).2
    let s4 := (deposit 4 "account2" 2000 s3).2
    (pay 5 "account2" 2000 s4).1 = some "payment1" := by decide

example :
    let s0 := runOps initState
      [.create 1 "account1", .create 2 "account2",
       .dep 3 "account1" 2000, .dep 4 "account2" 2000,
       .payO 5 "account2" 2000, .xfer 6 "account1" "account2" 500,
       .merge 9 "account1" "account2"]
    let s := (deposit 10 "account1" 100 s0).2
    (deposit 10 "account1" 100 s0).1 = some 2100 ∧
    (getPaymentStatus 13 "account1" "payment1" s).1 = some "IN_PROGRESS" ∧
    (getBalance 16 "account1" 11 s).1 = some 2100 ∧
    (deposit 86400005 "account1" 100 s).1 = some 2240 ∧
    (deposit 11 "account2" 100 s).1 = none := by decide

example :
    let s := runOps initState [.create 1 "X", .dep 2 "X" 1000, .payO 3 "X" 300]
    (getBalance 4 "X" 3 s).1 = some 700 ∧
    (getBalance 86400005 "X" 86400003 s).1 = some 706 := by decide

/-! ### Dictionary lemmas -/

lemma getAcc_updAcc_self (l : List (String × Account)) (aid : String) (a : Account) :
    getAcc (updAcc l aid a) aid = some a := by
  induction l with
  | nil => simp [updAcc, getAcc]
  | cons p rest ih =>
    obtain ⟨k, v⟩ := p
    by_cases h : k = aid <;> simp [updAcc, getAcc, h, ih]

lemma getAcc_updAcc_ne (l : List (String × Account)) (aid aid' : String) (a : Account)
    (h : aid' ≠ aid) : getAcc (updAcc l aid a) aid' = getAcc l aid' := by
  induction l with
  | nil => simp [updAcc, getAcc, Ne.symm h]
  | cons p rest ih =>
    obtain ⟨k, v⟩ := p
    by_cases hk : k = aid
    · subst hk
      simp [updAcc, getAcc, Ne.symm h]
    · simp [updAcc, getAcc, hk, ih]

lemma getAcc_mapAccounts (l : List (String × Account)) (f : Account → Account)
    (aid : String) :
    getAcc (l.map (fun p => (p.1, f p.2))) aid = (getAcc l aid).map f := by
  induction l with
  | nil => simp [getAcc]
  | cons p rest ih =>
    obtain ⟨k, v⟩ := p
    by_cases h : k = aid <;> simp [getAcc, h, ih]

/-! ### Drain lemmas -/

lemma drainList_fst (t : Int) (l : List Txn) :
    (drainList t l).1 = l.map (markDue t) := by
  induction l with
  | nil => simp [drainList]
  | cons tr rest ih =>
    simp only [drainList, markDue, List.map]
    split <;> simp [ih]

lemma markDue_timestamp (t : Int) (tr : Txn) : (markDue t tr).timestamp = tr.timestamp := by
  unfold markDue; split <;> rfl

lemma markDue_operation (t : Int) (tr : Txn) : (markDue t tr).operation = tr.operation := by
  unfold markDue; split <;> rfl

lemma markDue_amount (t : Int) (tr : Txn) : (markDue t tr).amount = tr.amount := by
  unfold markDue; split <;> rfl

lemma markDue_mergedAt (t : Int) (tr : Txn) : (markDue t tr).mergedAt = tr.mergedAt := by
  unfold markDue; split <;> rfl

lemma markDue_relatedPayment (t : Int) (tr : Txn) :
    (markDue t tr).relatedPayment = tr.relatedPayment := by
  unfold markDue; split <;> rfl

lemma trCounts_markDue (asOf t : Int) (tr : Txn) :
    trCounts asOf (markDue t tr) = trCounts asOf tr := by
  unfold trCounts
  rw [markDue_timestamp, markDue_mergedAt]

lemma trDelta_markDue (t : Int) (tr : Txn) : trDelta (markDue t tr) = trDelta tr := by
  unfold trDelta
  rw [markDue_operation, markDue_amount]

lemma foldBalance_shift (l : List Txn) (b : Int) :
    l.foldl (fun b tr => b + trDelta tr) b = b + l.foldl (fun b tr => b + trDelta tr) 0 := by
  induction l generalizing b with
  | nil => simp
  | cons tr rest ih =>
    simp only [List.foldl]
    rw [ih (b + trDelta tr), ih (0 + trDelta tr)]
    omega

lemma foldBalance_nil (asOf : Int) : foldBalance asOf [] = 0 := rfl

lemma foldBalance_cons (asOf : Int) (tr : Txn) (l : List Txn) :
    foldBalance asOf (tr :: l) =
      (if trCounts asOf tr then trDelta tr else 0) + foldBalance asOf l := by
  unfold foldBalance
  by_cases h : trCounts asOf tr = true
  · simp only [List.filter_cons, h, if_true, List.foldl]
    rw [foldBalance_shift]
    omega
  · simp only [List.filter_cons, h, if_false, Bool.false_eq_true]
    simp [h]

lemma foldBalance_append (asOf : Int) (l1 l2 : List Txn) :
    foldBalance asOf (l1 ++ l2) = foldBalance asOf l1 + foldBalance asOf l2 := by
  induction l1 with
  | nil => simp [foldBalance_nil, foldBalance]
  | cons tr rest ih =>
    simp only [List.cons_append, foldBalance_cons, ih]
    omega

lemma foldBalance_map_markDue (asOf t : Int) (l : List Txn) :
    foldBalance asOf (l.map (markDue t)) = foldBalance asOf l := by
  induction l with
  | nil => rfl
  | cons tr rest ih =>
    simp only [List.map, foldBalance_cons, trCounts_markDue, trDelta_markDue, ih]

lemma foldBalance_drainList (asOf t : Int) (l : List Txn) :
    foldBalance asOf (drainList t l).1 = foldBalance asOf l := by
  rw [drainList_fst, foldBalance_map_markDue]

lemma processAccount_some (t : Int) (a : Account) (m : Int) (hm : a.mergedAt = some m) :
    processAccount t a = a := by
  unfold processAccount
  rw [hm]
  rfl

lemma processAccount_none (t : Int) (a : Account) (hm : a.mergedAt = none) :
    processAccount t a = ⟨a.balance + (drainList t a.transactions).2,
      (drainList t a.transactions).1, a.creationTime, none⟩ := by
  unfold processAccount
  rw [hm]
  rfl

lemma processAccount_mergedAt (t : Int) (a : Account) :
    (processAccount t a).mergedAt = a.mergedAt := by
  cases hm : a.mergedAt with
  | some m => rw [processAccount_some t a m hm, hm]
  | none => rw [processAccount_none t a hm]

lemma processAccount_creationTime (t : Int) (a : Account) :
    (processAccount t a).creationTime = a.creationTime := by
  cases hm : a.mergedAt with
  | some m => rw [processAccount_some t a m hm]
  | none => rw [processAccount_none t a hm]

lemma foldBalance_processAccount (asOf t : Int) (a : Account) :
    foldBalance asOf (processAccount t a).transactions = foldBalance asOf a.transactions := by
  cases hm : a.mergedAt with
  | some m => rw [processAccount_some t a m hm]
  | none =>
    rw [processAccount_none t a hm]
    exact foldBalance_drainList asOf t a.transactions

lemma processCashbacks_counter (t : Int) (s : BankState) :
    (processCashbacks t s).paymentCounter = s.paymentCounter := rfl

lemma getAcc_processCashbacks (t : Int) (s : BankState) (aid : String) :
    getAcc (processCashbacks t s).accounts aid = (getAcc s.accounts aid).map (processAccount t) := by
  unfold processCashbacks
  exact getAcc_mapAccounts s.accounts (processAccount t) aid

/-! ### Idempotence of the drain -/

lemma markDue_not_due (t' t : Int) (h : t' ≤ t) (tr : Txn) :
    ¬((markDue t tr).operation = "cashback" ∧ (markDue t tr).timestamp ≤ t' ∧
      (markDue t tr).deposited = false) := by
  unfold markDue
  split
  · intro h2
    simp at h2
  · next h1 =>
    intro h2
    exact h1 ⟨h2.1, le_trans h2.2.1 h, h2.2.2⟩

lemma drainList_marked (t' t : Int) (h : t' ≤ t) (l : List Txn) :
    drainList t' (l.map (markDue t)) = (l.map (markDue t), 0) := by
  induction l with
  | nil => rfl
  | cons tr rest ih =>
    simp only [List.map, drainList, ih]
    rw [if_neg (markDue_not_due t' t h tr)]

lemma processAccount_idem (t' t : Int) (h : t' ≤ t) (a : Account) :
    processAccount t' (processAccount t a) = processAccount t a := by
  cases hm : a.mergedAt with
  | some m => rw [processAccount_some t a m hm, processAccount_some t' a m hm]
  | none =>
    rw [processAccount_none t a hm, processAccount_none t' _ rfl]
    simp only [drainList_fst t, drainList_marked t' t h]
    simp

lemma processCashbacks_idem (t' t : Int) (h : t' ≤ t) (s : BankState) :
    processCashbacks t' (processCashbacks t s) = processCashbacks t s := by
  unfold processCashbacks
  simp only [List.map_map]
  congr 1
  apply List.map_congr_left
  intro p _
  simp only [Function.comp]
  rw [processAccount_idem t' t h]

/-! ### Characterisation of the balance query -/

lemma balanceView_eq_of_getAcc (aid : String) (asOf : Int) (s1 s2 : BankState)
    (h : getAcc s1.accounts aid = getAcc s2.accounts aid) :
    balanceView aid asOf s1 = balanceView aid asOf s2 := by
  unfold balanceView
  rw [h]

lemma balanceView_processCashbacks (u : Int) (aid : String) (asOf : Int) (s : BankState) :
    balanceView aid asOf (processCashbacks u s) = balanceView aid asOf s := by
  unfold balanceView
  rw [getAcc_processCashbacks]
  cases hg : getAcc s.accounts aid with
  | none => rfl
  | some acc =>
    simp only [Option.map_some']
    rw [processAccount_creationTime, processAccount_mergedAt]
    simp only [foldBalance_processAccount]

lemma getBalance_fst (t : Int) (aid : String) (timeAt : Int) (s : BankState) :
    (getBalance t aid timeAt s).1 = balanceView aid timeAt s := by
  rw [← balanceView_processCashbacks t aid timeAt s]
  simp only [getBalance, balanceView]
  cases hg : getAcc (processCashbacks t s).accounts aid with
  | none => rfl
  | some acc =>
    dsimp only
    by_cases hc : acc.creationTime > timeAt
    · rw [if_pos hc, if_pos hc]
    · rw [if_neg hc, if_neg hc]
      cases hm : acc.mergedAt with
      | some m =>
        dsimp only
        by_cases ht : timeAt ≥ m
        · rw [if_pos ht, if_pos ht]
        · rw [if_neg ht, if_neg ht]
      | none => rfl

lemma getBalance_snd (t : Int) (aid : String) (timeAt : Int) (s : BankState) :
    (getBalance t aid timeAt s).2 = processCashbacks t s := by
  simp only [getBalance]
  cases hg : getAcc (processCashbacks t s).accounts aid with
  | none => rfl
  | some acc =>
    dsimp only
    by_cases hc : acc.creationTime > timeAt
    · rw [if_pos hc]
    · rw [if_neg hc]
      cases hm : acc.mergedAt with
      | some m =>
        dsimp only
        by_cases ht : timeAt ≥ m
        · rw [if_pos ht]
        · rw [if_neg ht]
      | none => rfl

lemma getPaymentStatus_snd (t : Int) (aid ref : String) (s : BankState) :
    (getPaymentStatus t aid ref s).2 = processCashbacks t s := by
  simp only [getPaymentStatus]
  cases hg : getAcc (processCashbacks t s).accounts aid with
  | none => rfl
  | some acc =>
    dsimp only
    by_cases hm : acc.mergedAt.isSome
    · rw [if_pos hm]
    · rw [if_neg hm]
      by_cases hf : !acc.transactions.any (fun tr => tr.operation == ref)
      · rw [if_pos hf]
      · rw [if_neg hf]

lemma topSpenders_snd (t : Int) (n : Nat) (s : BankState) :
    (topSpenders t n s).2 = processCashbacks t s := rfl

/-! ### Per-operation state and counter lemmas -/

lemma createAccount_counter (t : Int) (aid : String) (s : BankState) :
    (createAccount t aid s).2.paymentCounter = s.paymentCounter := by
  simp only [createAccount]
  cases hg : getAcc s.accounts aid with
  | none => rfl
  | some acc =>
    dsimp only
    by_cases hm : acc.mergedAt.isNone
    · rw [if_pos hm]
    · rw [if_neg hm]

lemma createAccount_reject (t : Int) (aid : String) (s : BankState)
    (h : (createAccount t aid s).1 = false) : (createAccount t aid s).2 = s := by
  simp only [createAccount] at h ⊢
  cases hg : getAcc s.accounts aid with
  | none =>
    rw [hg] at h
    exact absurd h (by simp)
  | some acc =>
    rw [hg] at h
    dsimp only at h ⊢
    by_cases hm : acc.mergedAt.isNone
    · rw [if_pos hm]
    · rw [if_neg hm] at h
      exact absurd h (by simp)

lemma deposit_counter (t : Int) (aid : String) (amt : Int) (s : BankState) :
    (deposit t aid amt s).2.paymentCounter = s.paymentCounter := by
  simp only [deposit]
  cases hg : getAcc (processCashbacks t s).accounts aid with
  | none => rfl
  | some acc =>
    dsimp only
    by_cases hm : acc.mergedAt.isSome
    · rw [if_pos hm]
      rfl
    · rw [if_neg hm]
      rfl

lemma deposit_reject (t : Int) (aid : String) (amt : Int) (s : BankState)
    (h : (deposit t aid amt s).1 = none) : (deposit t aid amt s).2 = processCashbacks t s := by
  simp only [deposit] at h ⊢
  cases hg : getAcc (processCashbacks t s).accounts aid with
  | none => rfl
  | some acc =>
    rw [hg] at h
    dsimp only at h ⊢
    by_cases hm : acc.mergedAt.isSome
    · rw [if_pos hm]
    · rw [if_neg hm] at h
      exact absurd h (by simp)

lemma transfer_counter (t : Int) (src tgt : String) (amt : Int) (s : BankState) :
    (transfer t src tgt amt s).2.paymentCounter = s.paymentCounter := by
  simp only [transfer]
  cases h1 : getAcc (processCashbacks t s).accounts src with
  | none => rfl
  | some a1 =>
    cases h2 : getAcc (processCashbacks t s).accounts tgt with
    | none => rfl
    | some a2 =>
      dsimp only
      by_cases he : src = tgt
      · rw [if_pos he]
        rfl
      · rw [if_neg he]
        by_cases hm : a1.mergedAt.isSome ∨ a2.mergedAt.isSome
        · rw [if_pos hm]
          rfl
        · rw [if_neg hm]
          by_cases hb : a1.balance < amt
          · rw [if_pos hb]
            rfl
          · rw [if_neg hb]
            rfl

lemma transfer_reject (t : Int) (src tgt : String) (amt : Int) (s : BankState)
    (h : (transfer t src tgt amt s).1 = none) :
    (transfer t src tgt amt s).2 = processCashbacks t s := by
  simp only [transfer] at h ⊢
  cases h1 : getAcc (processCashbacks t s).accounts src with
  | none => rfl
  | some a1 =>
    cases h2 : getAcc (processCashbacks t s).accounts tgt with
    | none => rfl
    | some a2 =>
      rw [h1, h2] at h
      dsimp only at h ⊢
      by_cases he : src = tgt
      · rw [if_pos he]
      · rw [if_neg he] at h ⊢
        by_cases hm : a1.mergedAt.isSome ∨ a2.mergedAt.isSome
        · rw [if_pos hm]
        · rw [if_neg hm] at h ⊢
          by_cases hb : a1.balance < amt
          · rw [if_pos hb]
          · rw [if_neg hb] at h
            exact absurd h (by simp)

lemma pay_counter (t : Int) (aid : String) (amt : Int) (s : BankState) :
    (pay t aid amt s).2.paymentCounter =
      if (pay t aid amt s).1.isSome then s.paymentCounter + 1 else s.paymentCounter := by
  simp only [pay]
  cases hg : getAcc (processCashbacks t s).accounts aid with
  | none => rfl
  | some acc =>
    dsimp only
    by_cases hm : acc.mergedAt.isSome
    · rw [if_pos hm]
      rfl
    · rw [if_neg hm]
      by_cases hb : acc.balance < amt
      · rw [if_pos hb]
        rfl
      · rw [if_neg hb]
        rfl

lemma pay_reject (t : Int) (aid : String) (amt : Int) (s : BankState)
    (h : (pay t aid amt s).1 = none) : (pay t aid amt s).2 = processCashbacks t s := by
  simp only [pay] at h ⊢
  cases hg : getAcc (processCashbacks t s).accounts aid with
  | none => rfl
  | some acc =>
    rw [hg] at h
    dsimp only at h ⊢
    by_cases hm : acc.mergedAt.isSome
    · rw [if_pos hm]
    · rw [if_neg hm] at h ⊢
      by_cases hb : acc.balance < amt
      · rw [if_pos hb]
      · rw [if_neg hb] at h
        exact absurd h (by simp)

lemma pay_success (t : Int) (aid : String) (amt : Int) (s : BankState) (acc : Account)
    (hg : getAcc (processCashbacks t s).accounts aid = some acc)
    (hm : acc.mergedAt.isSome = false) (hb : ¬acc.balance < amt) :
    pay t aid amt s = (some ("payment" ++ toString s.paymentCounter),
      { processCashbacks t s with
        accounts := updAcc (processCashbacks t s).accounts aid
          { acc with
            balance := acc.balance - amt,
            transactions := acc.transactions ++
              [⟨t, "payment" ++ toString s.paymentCounter, amt, none, false, none, none⟩,
               ⟨t + 86400000, "cashback", Int.tdiv (amt * 2) 100,
                some ("payment" ++ toString s.paymentCounter), false, none, none⟩] },
        paymentCounter := s.paymentCounter + 1 }) := by
  simp only [pay]
  rw [hg]
  dsimp only
  rw [if_neg (by rw [hm]; simp), if_neg hb]
  rfl

lemma pay_fst_some (t : Int) (aid : String) (amt : Int) (s : BankState) (r : String)
    (h : (pay t aid amt s).1 = some r) :
    r = "payment" ++ toString s.paymentCounter ∧
    (pay t aid amt s).2.paymentCounter = s.paymentCounter + 1 := by
  have hc := pay_counter t aid amt s
  rw [h] at hc
  simp only [Option.isSome_some, if_true] at hc
  refine ⟨?_, hc⟩
  revert h
  simp only [pay]
  cases hg : getAcc (processCashbacks t s).accounts aid with
  | none =>
    intro h
    exact absurd h (by simp)
  | some acc =>
    dsimp only
    by_cases hm : acc.mergedAt.isSome
    · rw [if_pos hm]
      intro h
      exact absurd h (by simp)
    · rw [if_neg hm]
      by_cases hb : acc.balance < amt
      · rw [if_pos hb]
        intro h
        exact absurd h (by simp)
      · rw [if_neg hb]
        intro h
        simpa using h.symm

lemma getPaymentStatus_counter (t : Int) (aid ref : String) (s : BankState) :
    (getPaymentStatus t aid ref s).2.paymentCounter = s.paymentCounter := by
  rw [getPaymentStatus_snd]
  rfl

lemma mergeAccounts_counter (t : Int) (aid1 aid2 : String) (s : BankState) :
    (mergeAccounts t aid1 aid2 s).2.paymentCounter = s.paymentCounter := by
  simp only [mergeAccounts]
  by_cases he : aid1 = aid2
  · rw [if_pos he]
    rfl
  · rw [if_neg he]
    cases h1 : getAcc (processCashbacks t s).accounts aid1 with
    | none => rfl
    | some a1 =>
      cases h2 : getAcc (processCashbacks t s).accounts aid2 with
      | none => rfl
      | some a2 =>
        dsimp only
        by_cases hm : a1.mergedAt.isSome ∨ a2.mergedAt.isSome
        · rw [if_pos hm]
          rfl
        · rw [if_neg hm]
          rfl

lemma mergeAccounts_reject (t : Int) (aid1 aid2 : String) (s : BankState)
    (h : (mergeAccounts t aid1 aid2 s).1 = false) :
    (mergeAccounts t aid1 aid2 s).2 = processCashbacks t s := by
  simp only [mergeAccounts] at h ⊢
  by_cases he : aid1 = aid2
  · rw [if_pos he]
  · rw [if_neg he] at h ⊢
    cases h1 : getAcc (processCashbacks t s).accounts aid1 with
    | none => rfl
    | some a1 =>
      cases h2 : getAcc (processCashbacks t s).accounts aid2 with
      | none => rfl
      | some a2 =>
        rw [h1, h2] at h
        dsimp only at h ⊢
        by_cases hm : a1.mergedAt.isSome ∨ a2.mergedAt.isSome
        · rw [if_pos hm]
        · rw [if_neg hm] at h
          exact absurd h (by simp)

lemma mergeAccounts_success (t : Int) (aid1 aid2 : String) (s : BankState)
    (a1 a2 : Account) (he : aid1 ≠ aid2)
    (h1 : getAcc (processCashbacks t s).accounts aid1 = some a1)
    (h2 : getAcc (processCashbacks t s).accounts aid2 = some a2)
    (hm : ¬(a1.mergedAt.isSome ∨ a2.mergedAt.isSome)) :
    mergeAccounts t aid1 aid2 s = (true,
      { processCashbacks t s with
        accounts := updAcc (updAcc (processCashbacks t s).accounts aid1
          { a1 with
            balance := a1.balance + a2.balance,
            transactions := a1.transactions ++ a2.transactions.map
              (fun tr => { tr with mergedFrom := some aid2, mergedAt := some t }) })
          aid2 { a2 with mergedAt := some t } }) := by
  simp only [mergeAccounts]
  rw [if_neg he, h1, h2]
  dsimp only
  rw [if_neg hm]

/-! ### Trace-level payment counter lemmas -/

lemma step_counter (s : BankState) (o : Oper) :
    (step s o).paymentCounter = s.paymentCounter + countPays s [o] := by
  cases o with
  | create t aid => simp [step, countPays, createAccount_counter]
  | dep t aid amount => simp [step, countPays, deposit_counter]
  | xfer t src tgt amount => simp [step, countPays, transfer_counter]
  | top t n => simp [step, countPays, topSpenders_snd, processCashbacks_counter]
  | payO t aid amount =>
    simp only [step, countPays]
    rw [pay_counter]
    by_cases h : (pay t aid amount s).1.isSome
    · simp [h]
    · simp [h]
  | status t aid ref => simp [step, countPays, getPaymentStatus_counter]
  | merge t aid1 aid2 => simp [step, countPays, mergeAccounts_counter]
  | balQ t aid asOf => simp [step, countPays, getBalance_snd, processCashbacks_counter]

lemma runOps_counter (l : List Oper) (s : BankState) :
    (runOps s l).paymentCounter = s.paymentCounter + countPays s l := by
  induction l generalizing s with
  | nil => simp [runOps, countPays]
  | cons o rest ih =>
    simp only [runOps, countPays]
    rw [ih (step s o)]
    have hs := step_counter s o
    simp only [countPays] at hs
    omega

lemma countPays_append (s : BankState) (l1 l2 : List Oper) :
    countPays s (l1 ++ l2) = countPays s l1 + countPays (runOps s l1) l2 := by
  induction l1 generalizing s with
  | nil => simp [countPays, runOps]
  | cons o rest ih =>
    simp only [List.cons_append, countPays, runOps, List.append_eq]
    rw [ih (step s o)]
    omega

/-! ### Balance view invariance under later operations -/

lemma foldBalance_tagged (asOf T : Int) (hlt : asOf < T) (did : String) (l : List Txn) :
    foldBalance asOf (l.map (fun tr => { tr with mergedFrom := some did, mergedAt := some T })) = 0 := by
  have hT : ¬ T ≤ asOf := by omega
  induction l with
  | nil => rfl
  | cons tr rest ih =>
    simp only [List.map, foldBalance_cons, ih]
    have hc : trCounts asOf { tr with mergedFrom := some did, mergedAt := some T } = false := by
      simp [trCounts, hT]
    rw [hc]
    simp

lemma balanceView_deposit (t2 : Int) (did : String) (amt : Int) (aid : String)
    (asOf : Int) (s : BankState) (hlt : asOf < t2) :
    balanceView aid asOf (deposit t2 did amt s).2 = balanceView aid asOf s := by
  rw [← balanceView_processCashbacks t2 aid asOf s]
  simp only [deposit]
  cases hg : getAcc (processCashbacks t2 s).accounts did with
  | none => rfl
  | some acc =>
    dsimp only
    by_cases hm : acc.mergedAt.isSome
    · rw [if_pos hm]
    · rw [if_neg hm]
      dsimp only
      by_cases heq : aid = did
      · subst heq
        have hnone : acc.mergedAt = none := Option.not_isSome_iff_eq_none.mp (by simpa using hm)
        unfold balanceView
        dsimp only
        rw [getAcc_updAcc_self, hg]
        dsimp only
        by_cases hc : acc.creationTime > asOf
        · rw [if_pos hc, if_pos hc]
        · rw [if_neg hc, if_neg hc]
          rw [hnone]
          dsimp only
          rw [foldBalance_append]
          have hrec : foldBalance asOf [(⟨t2, "deposit", amt, none, false, none, none⟩ : Txn)] = 0 := by
            rw [foldBalance_cons, foldBalance_nil]
            have : trCounts asOf (⟨t2, "deposit", amt, none, false, none, none⟩ : Txn) = false := by
              simp [trCounts]
              omega
            rw [this]
            simp
          rw [hrec]
          simp
      · exact balanceView_eq_of_getAcc aid asOf _ _
          (getAcc_updAcc_ne (processCashbacks t2 s).accounts did aid _ heq)

lemma mergeAccounts_true_elim (t : Int) (aid1 aid2 : String) (s : BankState)
    (h : (mergeAccounts t aid1 aid2 s).1 = true) :
    ∃ a1 a2, aid1 ≠ aid2 ∧
      getAcc (processCashbacks t s).accounts aid1 = some a1 ∧
      getAcc (processCashbacks t s).accounts aid2 = some a2 ∧
      a1.mergedAt = none ∧ a2.mergedAt = none := by
  revert h
  simp only [mergeAccounts]
  by_cases he : aid1 = aid2
  · rw [if_pos he]
    intro h
    exact absurd h (by simp)
  · rw [if_neg he]
    cases h1 : getAcc (processCashbacks t s).accounts aid1 with
    | none =>
      intro h
      exact absurd h (by simp)
    | some a1 =>
      cases h2 : getAcc (processCashbacks t s).accounts aid2 with
      | none =>
        intro h
        exact absurd h (by simp)
      | some a2 =>
        dsimp only
        by_cases hm : a1.mergedAt.isSome ∨ a2.mergedAt.isSome
        · rw [if_pos hm]
          intro h
          exact absurd h (by simp)
        · rw [if_neg hm]
          intro _
          push_neg at hm
          exact ⟨a1, a2, he, rfl, rfl, Option.not_isSome_iff_eq_none.mp hm.1,
            Option.not_isSome_iff_eq_none.mp hm.2⟩

lemma balanceView_merge (T : Int) (id1 id2 : String) (aid : String) (asOf : Int)
    (s : BankState) (hlt : asOf < T) :
    balanceView aid asOf (mergeAccounts T id1 id2 s).2 = balanceView aid asOf s := by
  cases hres : (mergeAccounts T id1 id2 s).1 with
  | false => rw [mergeAccounts_reject T id1 id2 s hres, balanceView_processCashbacks]
  | true =>
    obtain ⟨a1, a2, he, h1, h2, hm1, hm2⟩ := mergeAccounts_true_elim T id1 id2 s hres
    have hS := mergeAccounts_success T id1 id2 s a1 a2 he h1 h2 (by simp [hm1, hm2])
    rw [← balanceView_processCashbacks T aid asOf s, hS]
    by_cases h2q : aid = id2
    · subst h2q
      unfold balanceView
      dsimp only
      rw [getAcc_updAcc_self, h2]
      dsimp only
      by_cases hc : a2.creationTime > asOf
      · rw [if_pos hc, if_pos hc]
      · rw [if_neg hc, if_neg hc]
        rw [hm2]
        dsimp only
        rw [if_neg (by omega : ¬ asOf ≥ T)]
    · by_cases h1q : aid = id1
      · subst h1q
        unfold balanceView
        dsimp only
        rw [getAcc_updAcc_ne _ id2 aid _ he, getAcc_updAcc_self, h1]
        dsimp only
        by_cases hc : a1.creationTime > asOf
        · rw [if_pos hc, if_pos hc]
        · rw [if_neg hc, if_neg hc]
          rw [hm1]
          dsimp only
          rw [foldBalance_append, foldBalance_tagged asOf T hlt id2 a2.transactions]
          simp
      · refine balanceView_eq_of_getAcc aid asOf _ _ ?_
        dsimp only
        rw [getAcc_updAcc_ne _ id2 aid _ h2q, getAcc_updAcc_ne _ id1 aid _ h1q]

lemma markDue_of_ts_gt (u : Int) (z : Txn) (h : u < z.timestamp) : markDue u z = z := by
  unfold markDue
  split
  · next hc => exact absurd hc.2.1 (by omega)
  · rfl

lemma markDue_flips (u : Int) (z : Txn) (hop : z.operation = "cashback")
    (hts : z.timestamp ≤ u) (hd : z.deposited = false) :
    markDue u z = { z with deposited := true } := by
  unfold markDue
  rw [if_pos ⟨hop, hts, hd⟩]

/-! ### Draining the merge scenario at a symbolic time -/

lemma mergeScenario_eq : mergeScenario =
    ⟨[("A", ⟨0,
        [⟨3, "deposit", 2000, none, false, some "B", some 9⟩,
         ⟨4, "payment1", 2000, none, false, some "B", some 9⟩,
         ⟨86400004, "cashback", 40, some "payment1", false, some "B", some 9⟩],
        1, none⟩),
      ("B", ⟨0,
        [⟨3, "deposit", 2000, none, false, none, none⟩,
         ⟨4, "payment1", 2000, none, false, none, none⟩,
         ⟨86400004, "cashback", 40, some "payment1", false, none, none⟩],
        2, some 9⟩)], 2⟩ := by
  decide

lemma drainMergeScenario_lt (now : Int) (h : now < 86400004) :
    processCashbacks now mergeScenario = mergeScenario := by
  rw [mergeScenario_eq]
  unfold processCashbacks
  dsimp only [List.map]
  rw [processAccount_none now _ rfl, processAccount_some now _ 9 rfl]
  simp only [drainList]
  rw [if_neg (by simp), if_neg (by simp), if_neg (by simp; omega)]
  simp

lemma drainMergeScenario_ge (now : Int) (h : 86400004 ≤ now) :
    processCashbacks now mergeScenario = mergeScenarioDrained := by
  have hd : mergeScenarioDrained =
      ⟨[("A", ⟨40,
          [⟨3, "deposit", 2000, none, false, some "B", some 9⟩,
           ⟨4, "payment1", 2000, none, false, some "B", some 9⟩,
           ⟨86400004, "cashback", 40, some "payment1", true, some "B", some 9⟩],
          1, none⟩),
        ("B", ⟨0,
          [⟨3, "deposit", 2000, none, false, none, none⟩,
           ⟨4, "payment1", 2000, none, false, none, none⟩,
           ⟨86400004, "cashback", 40, some "payment1", false, none, none⟩],
          2, some 9⟩)], 2⟩ := by decide
  rw [hd, mergeScenario_eq]
  unfold processCashbacks
  dsimp only [List.map]
  rw [processAccount_none now _ rfl, processAccount_some now _ 9 rfl]
  simp only [drainList]
  rw [if_neg (by simp), if_neg (by simp), if_pos (by refine ⟨?_, h, ?_⟩ <;> trivial)]
  simp

/-! ### Claim theorems -/

/-- C1 (amended): every public operation other than `create_account` first
drains the scheduler at the caller-supplied timestamp, so running it on a
pre-drained state changes neither its result nor its post-state; formally
`op s = op (processCashbacks now s)` for deposit, transfer, top_spenders,
pay, get_payment_status, merge_accounts and get_balance.  `create_account`
is the exception: the source performs no drain there (see the
counterexample). -/
theorem drain_precedes_every_operation (s : BankState) (t : Int) (did : String)
    (damt : Int) (src tgt : String) (xamt : Int) (n : Nat) (pid : String)
    (pamt : Int) (qid ref mid1 mid2 bid : String) (asOf : Int) :
    deposit t did damt s = deposit t did damt (processCashbacks t s) ∧
    transfer t src tgt xamt s = transfer t src tgt xamt (processCashbacks t s) ∧
    topSpenders t n s = topSpenders t n (processCashbacks t s) ∧
    pay t pid pamt s = pay t pid pamt (processCashbacks t s) ∧
    getPaymentStatus t qid ref s = getPaymentStatus t qid ref (processCashbacks t s) ∧
    mergeAccounts t mid1 mid2 s = mergeAccounts t mid1 mid2 (processCashbacks t s) ∧
    getBalance t bid asOf s = getBalance t bid asOf (processCashbacks t s) := by
  refine ⟨?_, ?_, ?_, ?_, ?_, ?_, ?_⟩ <;>
    simp only [deposit, transfer, topSpenders, pay, getPaymentStatus, mergeAccounts,
      getBalance, processCashbacks_idem t t le_rfl]

/-- C1 counterexample: `create_account` does not drain.  On a state with an
undeposited cashback due at time 5, creating a fresh account at time 10
leaves the cashback pending, whereas a drain at 10 followed by the same
creation logic deposits it — so the post-states differ. -/
theorem create_account_skips_drain :
    (createAccount 10 "B" cexState).2 ≠ (createAccount 10 "B" (processCashbacks 10 cexState)).2 := by
  decide

/-- C2: a transplanted record tagged `provenance(mergedAt = tm)` enters the
balance fold exactly when both its timestamp and `tm` are at or before
`asOf`; and the value of `get_balance(·, aid, asOf)` is unchanged by a later
drain, by a later deposit at `t2 > asOf`, by a later merge at `T > asOf`,
and by interleaved `get_balance` calls — historical immutability. -/
theorem merge_provenance_gates_history (s : BankState) (now now' u t2 T : Int)
    (did aid id1 id2 qid : String) (amt asOf qasOf : Int) (tr : Txn) (tm : Int) :
    (tr.mergedAt = some tm →
      (trCounts asOf tr = true ↔ (tr.timestamp ≤ asOf ∧ tm ≤ asOf))) ∧
    (getBalance now' aid asOf (processCashbacks u s)).1 = (getBalance now aid asOf s).1 ∧
    (asOf < t2 →
      (getBalance now' aid asOf (deposit t2 did amt s).2).1 = (getBalance now aid asOf s).1) ∧
    (asOf < T →
      (getBalance now' aid asOf (mergeAccounts T id1 id2 s).2).1 = (getBalance now aid asOf s).1) ∧
    (getBalance now' aid asOf (getBalance u qid qasOf s).2).1 = (getBalance now aid asOf s).1 := by
  refine ⟨?_, ?_, ?_, ?_, ?_⟩
  · intro h
    simp [trCounts, h]
  · rw [getBalance_fst, getBalance_fst, balanceView_processCashbacks]
  · intro hlt
    rw [getBalance_fst, getBalance_fst, balanceView_deposit t2 did amt aid asOf s hlt]
  · intro hlt
    rw [getBalance_fst, getBalance_fst, balanceView_merge T id1 id2 aid asOf s hlt]
  · rw [getBalance_snd, getBalance_fst, getBalance_fst, balanceView_processCashbacks]

/-- C2 witness: concrete instances of the provenance gate and of historical
immutability across a later deposit and a later merge. -/
theorem merge_provenance_gates_history_witness :
    (trCounts 10 (⟨3, "deposit", 5, none, false, none, some 2⟩ : Txn) = true ↔
      ((3 : Int) ≤ 10 ∧ (2 : Int) ≤ 10)) ∧
    (getBalance 0 "A" 10 (deposit 11 "D" 5 cexState).2).1 = (getBalance 0 "A" 10 cexState).1 ∧
    (getBalance 0 "A" 10 (mergeAccounts 12 "M1" "M2" cexState).2).1 =
      (getBalance 0 "A" 10 cexState).1 := by
  have h := merge_provenance_gates_history cexState 0 0 0 11 12 "D" "A" "M1" "M2" "Q" 5 10 3
    ⟨3, "deposit", 5, none, false, none, some 2⟩ 2
  exact ⟨h.1 rfl, h.2.2.1 (by decide), h.2.2.2.1 (by decide)⟩

/-- C3: after a successful `merge_accounts(T, id1, id2)`, querying the donor
`id2` returns NotFound for any `asOf ≥ T`, while for `createdAt ≤ asOf < T`
it still returns the fold of the donor's own pre-merge records — the donor's
history stays queryable. -/
theorem donor_history_queryable (s : BankState) (T : Int) (id1 id2 : String)
    (a2 : Account) (hsucc : (mergeAccounts T id1 id2 s).1 = true)
    (hg : getAcc s.accounts id2 = some a2) (now asOf1 asOf2 : Int) :
    (asOf1 ≥ T → (getBalance now id2 asOf1 (mergeAccounts T id1 id2 s).2).1 = none) ∧
    (a2.creationTime ≤ asOf2 → asOf2 < T →
      (getBalance now id2 asOf2 (mergeAccounts T id1 id2 s).2).1 =
        some (foldBalance asOf2 a2.transactions)) := by
  have hgd : getAcc (processCashbacks T s).accounts id2 = some (processAccount T a2) := by
    rw [getAcc_processCashbacks, hg]
    rfl
  obtain ⟨a1, a2', he, h1, h2, hm1, hm2⟩ := mergeAccounts_true_elim T id1 id2 s hsucc
  have ha2 : a2' = processAccount T a2 := by
    rw [h2] at hgd
    exact Option.some.inj hgd
  subst ha2
  have hS := mergeAccounts_success T id1 id2 s a1 _ he h1 h2 (by simp [hm1, hm2])
  constructor
  · intro hge
    rw [getBalance_fst, hS]
    unfold balanceView
    rw [getAcc_updAcc_self]
    dsimp only
    by_cases hc : (processAccount T a2).creationTime > asOf1
    · rw [if_pos hc]
    · rw [if_neg hc]
      rw [if_pos hge]
  · intro hcle hlt2
    rw [getBalance_fst, hS]
    unfold balanceView
    rw [getAcc_updAcc_self]
    dsimp only
    rw [if_neg (by rw [processAccount_creationTime]; omega)]
    rw [if_neg (by omega : ¬ asOf2 ≥ T), foldBalance_processAccount]

/-- C3 witness: the donor `"B"` of the concrete merge at time 9 is NotFound
at `asOf = 100` but still reports its historical fold at `asOf = 5`. -/
theorem donor_history_queryable_witness :
    (getBalance 50 "B" 100 (mergeAccounts 9 "A" "B" preMergeState).2).1 = none ∧
    (getBalance 50 "B" 5 (mergeAccounts 9 "A" "B" preMergeState).2).1 =
      some (foldBalance 5 (⟨0,
        [⟨3, "deposit", 2000, none, false, none, none⟩,
         ⟨4, "payment1", 2000, none, false, none, none⟩,
         ⟨86400004, "cashback", 40, some "payment1", false, none, none⟩],
        2, none⟩ : Account).transactions) := by
  have h := donor_history_queryable preMergeState 9 "A" "B"
    ⟨0, [⟨3, "deposit", 2000, none, false, none, none⟩,
         ⟨4, "payment1", 2000, none, false, none, none⟩,
         ⟨86400004, "cashback", 40, some "payment1", false, none, none⟩],
      2, none⟩ (by decide) (by decide) 50 100 5
  exact ⟨h.1 (by decide), h.2 (by decide) (by decide)⟩

/-- C4 (amended): `get_balance` drains at `now` only — its post-state is
exactly `processCashbacks now s`, independent of `asOf`, so `asOf` drives no
state mutation.  However the fold counts a cashback record purely by its
timestamp (and provenance) filter, ignoring the `deposited` flag: an
undeposited cashback with `timestamp ≤ asOf` contributes `amount` even when
`asOf > now` (refuting the claim's `asOf ≤ now` guard; see the
counterexample). -/
theorem getBalance_pure_query (s : BankState) (now : Int) (aid : String) (asOf : Int) :
    (getBalance now aid asOf s).2 = processCashbacks now s ∧
    (∀ tr : Txn, tr.operation = "cashback" → tr.mergedAt = none →
      ((trCounts asOf tr = true ↔ tr.timestamp ≤ asOf) ∧ trDelta tr = tr.amount)) := by
  refine ⟨getBalance_snd now aid asOf s, ?_⟩
  intro tr hop hmt
  constructor
  · simp [trCounts, hmt]
  · have hpp : opIsPayment "cashback" = false := by decide
    simp [trDelta, hop, hpp]

/-- C4 witness: the post-state of a concrete query equals the drain at
`now`, and a concrete undeposited cashback record is counted by timestamp
alone. -/
theorem getBalance_pure_query_witness :
    (getBalance 7 "A" 3 cexState).2 = processCashbacks 7 cexState ∧
    ((trCounts 6 (⟨5, "cashback", 7, some "payment1", false, none, none⟩ : Txn) = true ↔
        (5 : Int) ≤ 6) ∧
      trDelta (⟨5, "cashback", 7, some "payment1", false, none, none⟩ : Txn) = 7) := by
  have h := getBalance_pure_query cexState 7 "A" 6
  exact ⟨(getBalance_pure_query cexState 7 "A" 3).1,
    h.2 ⟨5, "cashback", 7, some "payment1", false, none, none⟩ rfl rfl⟩

/-- C4 counterexample: with `now = 4 < asOf = 86400003`, the query on the
trace `create X; deposit 1000; pay 300` returns `706`, which includes the
cashback of 6 whose record is still undeposited after the call (the drain at
4 did not reach it) — the claim's "counted only if `asOf ≤ now`" fails. -/
theorem getBalance_sees_future_cashback :
    (getBalance 4 "X" 86400003 cexTrace).1 = some 706 ∧
    ((getAcc (getBalance 4 "X" 86400003 cexTrace).2.accounts "X").map
      (fun a => a.transactions.all (fun tr => !tr.deposited))) = some true ∧
    ((4 : Int) < 86400003) := by
  decide

/-- C5: after a successful `merge_accounts(t, id1, id2)`, a payment made on
the donor `id2` (reference `ref`) whose cashback is still pending at merge
time fires on the survivor: any operation at `now1` before the due time
reports IN_PROGRESS for `ref` against `id1`, any operation at `now2` at or
after the due time reports CASHBACK_RECEIVED against `id1`, and the drain
never touches the merged-away donor (its balance and log are unchanged).
The final two conjuncts instantiate the crediting quantitatively on the
concrete scenario: the survivor's balance becomes exactly the cashback of 40
while the donor's stays 0. -/
theorem pending_cashback_redirects_to_survivor
    (s : BankState) (t : Int) (id1 id2 : String) (a1 a2 : Account) (ref : String)
    (p cb : Txn) (now1 now2 now3 : Int)
    (hsucc : (mergeAccounts t id1 id2 s).1 = true)
    (hg1 : getAcc s.accounts id1 = some a1)
    (hg2 : getAcc s.accounts id2 = some a2)
    (hp : p ∈ a2.transactions) (hpop : p.operation = ref)
    (hcb : cb ∈ a2.transactions) (hcbop : cb.operation = "cashback")
    (hcbrel : cb.relatedPayment = some ref) (hcbdep : cb.deposited = false)
    (hdue : t < cb.timestamp)
    (hall : ∀ tr, tr ∈ a1.transactions ++ a2.transactions → tr.operation = "cashback" →
      tr.relatedPayment = some ref → (tr.deposited = false ∧ cb.timestamp ≤ tr.timestamp))
    (hn1a : t ≤ now1) (hn1b : now1 < cb.timestamp) (hn2 : cb.timestamp ≤ now2)
    (hn3 : 86400004 ≤ now3) :
    (getPaymentStatus now1 id1 ref (mergeAccounts t id1 id2 s).2).1 = some "IN_PROGRESS" ∧
    (getPaymentStatus now2 id1 ref (mergeAccounts t id1 id2 s).2).1 = some "CASHBACK_RECEIVED" ∧
    getAcc (processCashbacks now2 (mergeAccounts t id1 id2 s).2).accounts id2 =
      some ⟨(processAccount t a2).balance, (processAccount t a2).transactions,
        (processAccount t a2).creationTime, some t⟩ ∧
    (getAcc (processCashbacks now3 mergeScenario).accounts "A").map Account.balance = some 40 ∧
    (getAcc (processCashbacks now3 mergeScenario).accounts "B").map Account.balance = some 0 := by
  obtain ⟨a1E, a2E, he, h1E, h2E, hm1E, hm2E⟩ := mergeAccounts_true_elim t id1 id2 s hsucc
  have hgd1 : getAcc (processCashbacks t s).accounts id1 = some (processAccount t a1) := by
    rw [getAcc_processCashbacks, hg1]
    rfl
  have hgd2 : getAcc (processCashbacks t s).accounts id2 = some (processAccount t a2) := by
    rw [getAcc_processCashbacks, hg2]
    rfl
  have ha1E : a1E = processAccount t a1 := by
    rw [h1E] at hgd1
    exact Option.some.inj hgd1
  have ha2E : a2E = processAccount t a2 := by
    rw [h2E] at hgd2
    exact Option.some.inj hgd2
  subst ha1E
  subst ha2E
  have hm1 : a1.mergedAt = none := by rw [← processAccount_mergedAt t a1]; exact hm1E
  have hm2 : a2.mergedAt = none := by rw [← processAccount_mergedAt t a2]; exact hm2E
  have htr1 : (processAccount t a1).transactions = a1.transactions.map (markDue t) := by
    rw [processAccount_none t a1 hm1]
    exact drainList_fst t a1.transactions
  have htr2 : (processAccount t a2).transactions = a2.transactions.map (markDue t) := by
    rw [processAccount_none t a2 hm2]
    exact drainList_fst t a2.transactions
  have hS := mergeAccounts_success t id1 id2 s (processAccount t a1) (processAccount t a2)
    he h1E h2E (by simp [hm1E, hm2E])
  -- resolving the survivor account after a later drain at an ambient time
  have hscan : ∀ noww : Int, ∃ b : Int,
      getAcc (processCashbacks noww (mergeAccounts t id1 id2 s).2).accounts id1 =
        some ⟨b,
          ((a1.transactions.map (markDue t) ++
            (a2.transactions.map (markDue t)).map
              (fun tr : Txn => { tr with mergedFrom := some id2, mergedAt := some t })).map
            (markDue noww)),
          (processAccount t a1).creationTime, none⟩ := by
    intro noww
    rw [hS]
    dsimp only
    rw [getAcc_processCashbacks, getAcc_updAcc_ne _ id2 id1 _ he, getAcc_updAcc_self]
    dsimp only [Option.map_some']
    rw [hm1E]
    rw [processAccount_none noww _ rfl]
    exact ⟨_, by rw [drainList_fst]; dsimp only; rw [htr1, htr2]⟩
  -- the payment record is always found on the survivor
  have hfound : ∀ noww : Int,
      (((a1.transactions.map (markDue t) ++
        (a2.transactions.map (markDue t)).map
          (fun tr : Txn => { tr with mergedFrom := some id2, mergedAt := some t })).map
        (markDue noww)).any (fun tr => tr.operation == ref)) = true := by
    intro noww
    rw [List.any_eq_true]
    refine ⟨markDue noww
      { markDue t p with mergedFrom := some id2, mergedAt := some t }, ?_, ?_⟩
    · exact List.mem_map_of_mem _ (List.mem_append_right _
        (List.mem_map_of_mem _ (List.mem_map_of_mem _ hp)))
    · simp [markDue_operation, hpop]
  -- before the due time no cashback for `ref` is deposited anywhere
  have hdepno :
      (((a1.transactions.map (markDue t) ++
        (a2.transactions.map (markDue t)).map
          (fun tr : Txn => { tr with mergedFrom := some id2, mergedAt := some t })).map
        (markDue now1)).any (fun tr =>
          tr.operation == "cashback" && tr.relatedPayment == some ref && tr.deposited)) = false := by
    rw [List.any_eq_false]
    intro x hx
    obtain ⟨y, hy, rfl⟩ := List.mem_map.mp hx
    intro hpred
    simp only [Bool.and_eq_true, beq_iff_eq] at hpred
    obtain ⟨⟨hxop, hxrel⟩, hxdep⟩ := hpred
    rw [markDue_operation] at hxop
    rw [markDue_relatedPayment] at hxrel
    rcases List.mem_append.mp hy with hy1 | hy2
    · obtain ⟨z, hz, rfl⟩ := List.mem_map.mp hy1
      rw [markDue_operation] at hxop
      rw [markDue_relatedPayment] at hxrel
      obtain ⟨hzdep, hzts⟩ := hall z (List.mem_append_left _ hz) hxop hxrel
      have hts : t < z.timestamp := by omega
      rw [markDue_of_ts_gt t z hts, markDue_of_ts_gt now1 z (by omega)] at hxdep
      simp [hzdep] at hxdep
    · obtain ⟨w, hw, rfl⟩ := List.mem_map.mp hy2
      obtain ⟨z, hz, rfl⟩ := List.mem_map.mp hw
      try dsimp only at hxop hxrel hxdep
      rw [markDue_operation] at hxop
      rw [markDue_relatedPayment] at hxrel
      obtain ⟨hzdep, hzts⟩ := hall z (List.mem_append_right _ hz) hxop hxrel
      have hts : t < z.timestamp := by omega
      rw [markDue_of_ts_gt t z hts] at hxdep
      rw [markDue_of_ts_gt now1 _
        (show now1 <
            ({ z with mergedFrom := some id2, mergedAt := some t } : Txn).timestamp from
          by dsimp only; omega)] at hxdep
      dsimp only at hxdep
      simp [hzdep] at hxdep
  -- at or after the due time the transplanted cashback is deposited
  have hdepyes :
      (((a1.transactions.map (markDue t) ++
        (a2.transactions.map (markDue t)).map
          (fun tr : Txn => { tr with mergedFrom := some id2, mergedAt := some t })).map
        (markDue now2)).any (fun tr =>
          tr.operation == "cashback" && tr.relatedPayment == some ref && tr.deposited)) = true := by
    rw [List.any_eq_true]
    refine ⟨markDue now2
      { markDue t cb with mergedFrom := some id2, mergedAt := some t }, ?_, ?_⟩
    · exact List.mem_map_of_mem _ (List.mem_append_right _
        (List.mem_map_of_mem _ (List.mem_map_of_mem _ hcb)))
    · rw [markDue_of_ts_gt t cb hdue]
      rw [markDue_flips now2 _ (by exact hcbop) (by dsimp only; omega) (by exact hcbdep)]
      simp [hcbop, hcbrel]
  refine ⟨?_, ?_, ?_, ?_, ?_⟩
  · obtain ⟨b, hb⟩ := hscan now1
    simp only [getPaymentStatus]
    rw [hb]
    dsimp only
    rw [if_neg (by simp)]
    rw [hfound now1, hdepno]
    rfl
  · obtain ⟨b, hb⟩ := hscan now2
    simp only [getPaymentStatus]
    rw [hb]
    dsimp only
    rw [if_neg (by simp)]
    rw [hfound now2, hdepyes]
    rfl
  · rw [hS]
    dsimp only
    rw [getAcc_processCashbacks, getAcc_updAcc_self]
    dsimp only [Option.map_some']
    rw [processAccount_some now2 _ t rfl]
  · rw [drainMergeScenario_ge now3 hn3]
    decide
  · rw [drainMergeScenario_ge now3 hn3]
    decide

/-- C5 witness: the concrete merge of `B` into `A` at time 9 with payment
`"payment1"` and cashback 40 due at 86400004, queried at times 13 and
86400005. -/
theorem pending_cashback_redirects_to_survivor_witness :
    (getPaymentStatus 13 "A" "payment1" (mergeAccounts 9 "A" "B" preMergeState).2).1 =
      some "IN_PROGRESS" ∧
    (getPaymentStatus 86400005 "A" "payment1" (mergeAccounts 9 "A" "B" preMergeState).2).1 =
      some "CASHBACK_RECEIVED" ∧
    getAcc (processCashbacks 86400005 (mergeAccounts 9 "A" "B" preMergeState).2).accounts "B" =
      some ⟨(processAccount 9 (⟨0,
          [⟨3, "deposit", 2000, none, false, none, none⟩,
           ⟨4, "payment1", 2000, none, false, none, none⟩,
           ⟨86400004, "cashback", 40, some "payment1", false, none, none⟩],
          2, none⟩ : Account)).balance,
        (processAccount 9 (⟨0,
          [⟨3, "deposit", 2000, none, false, none, none⟩,
           ⟨4, "payment1", 2000, none, false, none, none⟩,
           ⟨86400004, "cashback", 40, some "payment1", false, none, none⟩],
          2, none⟩ : Account)).transactions,
        (processAccount 9 (⟨0,
          [⟨3, "deposit", 2000, none, false, none, none⟩,
           ⟨4, "payment1", 2000, none, false, none, none⟩,
           ⟨86400004, "cashback", 40, some "payment1", false, none, none⟩],
          2, none⟩ : Account)).creationTime, some 9⟩ ∧
    (getAcc (processCashbacks 86400005 mergeScenario).accounts "A").map Account.balance = some 40 ∧
    (getAcc (processCashbacks 86400005 mergeScenario).accounts "B").map Account.balance = some 0 :=
  pending_cashback_redirects_to_survivor preMergeState 9 "A" "B"
    ⟨0, [], 1, none⟩
    ⟨0, [⟨3, "deposit", 2000, none, false, none, none⟩,
         ⟨4, "payment1", 2000, none, false, none, none⟩,
         ⟨86400004, "cashback", 40, some "payment1", false, none, none⟩],
      2, none⟩
    "payment1"
    ⟨4, "payment1", 2000, none, false, none, none⟩
    ⟨86400004, "cashback", 40, some "payment1", false, none, none⟩
    13 86400005 86400005
    (by decide) (by decide) (by decide) (by decide) rfl (by decide) rfl rfl rfl
    (by decide) (by decide) (by decide) (by decide) (by decide) (by decide)

/-- C6: a successful `pay` on the state reached by any trace of public
operations returns `"payment" ++ ordinal`, where the ordinal is one more
than the number of successful pays in the whole trace (a process-wide count,
not per-account), and the count rises by exactly one across this pay — hence
references are globally unique and strictly increasing. -/
theorem payment_reference_is_global_ordinal (l : List Oper) (t : Int) (aid : String)
    (amt : Int) (r : String) (h : (pay t aid amt (runOps initState l)).1 = some r) :
    r = "payment" ++ toString (countPays initState l + 1) ∧
    countPays initState (l ++ [Oper.payO t aid amt]) = countPays initState l + 1 := by
  obtain ⟨hr, -⟩ := pay_fst_some t aid amt (runOps initState l) r h
  have hcnt : (runOps initState l).paymentCounter = 1 + countPays initState l := by
    rw [runOps_counter]
    rfl
  constructor
  · rw [hr, hcnt, Nat.add_comm 1 (countPays initState l)]
  · rw [countPays_append initState l [Oper.payO t aid amt]]
    simp only [countPays]
    rw [h]
    simp

/-- C6 witness: the first successful pay of a concrete trace is
`"payment1"`, and the trace's pay count rises from 0 to 1. -/
theorem payment_reference_is_global_ordinal_witness :
    "payment1" = "payment" ++
      toString (countPays initState [Oper.create 1 "A", Oper.dep 2 "A" 100] + 1) ∧
    countPays initState ([Oper.create 1 "A", Oper.dep 2 "A" 100] ++ [Oper.payO 3 "A" 50]) =
      countPays initState [Oper.create 1 "A", Oper.dep 2 "A" 100] + 1 :=
  payment_reference_is_global_ordinal [Oper.create 1 "A", Oper.dep 2 "A" 100] 3 "A" 50
    "payment1" (by decide)

/-- C7 (in the exact-arithmetic model): a successful `pay(now, id, amount)`
for `0 ≤ amount ≤ balance` decrements the balance by `amount`, appends the
Paid record at `now` and a Cashback record at `now + 86400000` with
`deposited = false`, whose amount `c` is the exact floor of `amount·2/100`:
`0 ≤ c`, `100·c ≤ 2·amount < 100·(c+1)`.  (The Python source computes
`int(amount * 0.02)` in binary floating point, which differs from this exact
value for amounts of magnitude `≥ 2 ^ 53`; see the claim's failing input.) -/
theorem pay_effects_exact_model (s : BankState) (t : Int) (aid : String) (amt : Int)
    (acc : Account) (hg : getAcc s.accounts aid = some acc) (hm : acc.mergedAt = none)
    (hnn : 0 ≤ amt) (hle : amt ≤ (processAccount t acc).balance) :
    (pay t aid amt s).1 = some ("payment" ++ toString s.paymentCounter) ∧
    getAcc (pay t aid amt s).2.accounts aid = some
      { processAccount t acc with
        balance := (processAccount t acc).balance - amt,
        transactions := (processAccount t acc).transactions ++
          [⟨t, "payment" ++ toString s.paymentCounter, amt, none, false, none, none⟩,
           ⟨t + 86400000, "cashback", Int.tdiv (amt * 2) 100,
            some ("payment" ++ toString s.paymentCounter), false, none, none⟩] } ∧
    0 ≤ Int.tdiv (amt * 2) 100 ∧
    100 * Int.tdiv (amt * 2) 100 ≤ amt * 2 ∧
    amt * 2 < 100 * (Int.tdiv (amt * 2) 100 + 1) := by
  have hgd : getAcc (processCashbacks t s).accounts aid = some (processAccount t acc) := by
    rw [getAcc_processCashbacks, hg]
    rfl
  have hmd : (processAccount t acc).mergedAt.isSome = false := by
    rw [processAccount_mergedAt, hm]
    rfl
  have hb : ¬(processAccount t acc).balance < amt := by omega
  have h2 : (0 : Int) ≤ amt * 2 := by omega
  have htd : Int.tdiv (amt * 2) 100 = (amt * 2) / 100 :=
    Int.tdiv_eq_ediv h2 (by omega)
  have hmod1 : 0 ≤ (amt * 2) % 100 := Int.emod_nonneg (amt * 2) (by omega)
  have hmod2 : (amt * 2) % 100 < 100 := Int.emod_lt_of_pos (amt * 2) (by omega)
  have heq : 100 * ((amt * 2) / 100) + (amt * 2) % 100 = amt * 2 :=
    Int.ediv_add_emod (amt * 2) 100
  rw [pay_success t aid amt s (processAccount t acc) hgd hmd hb]
  refine ⟨rfl, ?_, ?_, ?_, ?_⟩
  · rw [getAcc_updAcc_self]
  · rw [htd]
    exact Int.ediv_nonneg h2 (by omega)
  · rw [htd]
    omega
  · rw [htd]
    omega

/-- C7 witness: a concrete successful pay of 50 out of a balance of 107
(after the drain credits 7) returns `"payment2"` and schedules a cashback of
1 = floor(50·2/100). -/
theorem pay_effects_exact_model_witness :
    (pay 10 "A" 50 cexState).1 = some "payment2" ∧
    0 ≤ Int.tdiv ((50 : Int) * 2) 100 ∧
    100 * Int.tdiv ((50 : Int) * 2) 100 ≤ (50 : Int) * 2 := by
  have h := pay_effects_exact_model cexState 10 "A" 50
    ⟨100, [⟨5, "cashback", 7, some "payment1", false, none, none⟩], 1, none⟩
    rfl rfl (by decide) (by decide)
  exact ⟨h.1.trans (by decide), h.2.2.1, h.2.2.2.1⟩

/-- C8: the drain is idempotent — after a drain at `t`, any further drain at
`t' ≤ t` is a no-op on the whole state (so no `deposited` flag flips twice),
and re-draining a drained transaction list credits an additional amount of
exactly 0 (no cashback amount is ever added to a balance twice). -/
theorem cashback_drain_idempotent (s : BankState) (t t' : Int) (l : List Txn)
    (h : t' ≤ t) :
    processCashbacks t' (processCashbacks t s) = processCashbacks t s ∧
    (drainList t' (drainList t l).1).2 = 0 := by
  refine ⟨processCashbacks_idem t' t h s, ?_⟩
  rw [drainList_fst, drainList_marked t' t h]

/-- C8 witness: draining the concrete one-cashback state at 5 and then again
at 3 changes nothing, and the re-drain credits 0. -/
theorem cashback_drain_idempotent_witness :
    processCashbacks 3 (processCashbacks 5 cexState) = processCashbacks 5 cexState ∧
    (drainList 3 (drainList 5
      [(⟨5, "cashback", 7, some "payment1", false, none, none⟩ : Txn)]).1).2 = 0 :=
  cashback_drain_idempotent cexState 5 3
    [⟨5, "cashback", 7, some "payment1", false, none, none⟩] (by decide)

/-- C9 (amended): a rejected operation performs no mutation beyond the
initial cashback drain at `now`: every rejected call's post-state equals
`processCashbacks now s` exactly (balances, logs, pending flags and the
payment counter included), and a rejected `create_account` — which never
drains — leaves the state literally unchanged.  The pure queries
`get_payment_status` and `get_balance` also never mutate beyond the drain. -/
theorem rejection_leaves_state_drained (s : BankState) (t : Int) (cid did : String)
    (damt : Int) (src tgt : String) (xamt : Int) (pid : String) (pamt : Int)
    (qid ref mid1 mid2 bid : String) (asOf : Int) :
    ((createAccount t cid s).1 = false → (createAccount t cid s).2 = s) ∧
    ((deposit t did damt s).1 = none → (deposit t did damt s).2 = processCashbacks t s) ∧
    ((transfer t src tgt xamt s).1 = none →
      (transfer t src tgt xamt s).2 = processCashbacks t s) ∧
    ((pay t pid pamt s).1 = none → (pay t pid pamt s).2 = processCashbacks t s) ∧
    (getPaymentStatus t qid ref s).2 = processCashbacks t s ∧
    ((mergeAccounts t mid1 mid2 s).1 = false →
      (mergeAccounts t mid1 mid2 s).2 = processCashbacks t s) ∧
    (getBalance t bid asOf s).2 = processCashbacks t s :=
  ⟨createAccount_reject t cid s, deposit_reject t did damt s,
   transfer_reject t src tgt xamt s, pay_reject t pid pamt s,
   getPaymentStatus_snd t qid ref s, mergeAccounts_reject t mid1 mid2 s,
   getBalance_snd t bid asOf s⟩

/-- C9 witness: on the concrete state, a duplicate create, a deposit and a
pay to a missing account, a self-transfer and a self-merge are all rejected
and leave exactly the drained state (the duplicate create the undrained
one). -/
theorem rejection_leaves_state_drained_witness :
    (createAccount 10 "A" cexState).2 = cexState ∧
    (deposit 10 "Z" 1 cexState).2 = processCashbacks 10 cexState ∧
    (transfer 10 "A" "A" 1 cexState).2 = processCashbacks 10 cexState ∧
    (pay 10 "Z" 1 cexState).2 = processCashbacks 10 cexState ∧
    (getPaymentStatus 10 "Z" "payment1" cexState).2 = processCashbacks 10 cexState ∧
    (mergeAccounts 10 "A" "A" cexState).2 = processCashbacks 10 cexState ∧
    (getBalance 10 "A" 3 cexState).2 = processCashbacks 10 cexState := by
  have h := rejection_leaves_state_drained cexState 10 "A" "Z" 1 "A" "A" 1 "Z" 1 "Z"
    "payment1" "A" "A" "A" 3
  exact ⟨h.1 (by decide), h.2.1 (by decide), h.2.2.1 (by decide), h.2.2.2.1 (by decide),
    h.2.2.2.2.1, h.2.2.2.2.2.1 (by decide), h.2.2.2.2.2.2⟩

/-- C9 counterexample: a rejected call does not leave the state "exactly as
it was before the call": the deposit to the missing account `"Z"` returns
None yet its drain deposits the pending cashback, changing `"A"`'s balance
and its record's flag. -/
theorem rejected_call_still_drains :
    (deposit 10 "Z" 1 cexState).1 = none ∧ (deposit 10 "Z" 1 cexState).2 ≠ cexState := by
  decide

/-- C10: `deposit` performs no sign check — for every active account and
every integer amount, including negative ones, it succeeds, returns the
(post-drain) previous balance plus the amount, and appends a Deposited
record of exactly that amount. -/
theorem deposit_accepts_negative_amounts (s : BankState) (t : Int) (aid : String)
    (amt : Int) (acc : Account) (hg : getAcc s.accounts aid = some acc)
    (hm : acc.mergedAt = none) :
    (deposit t aid amt s).1 = some ((processAccount t acc).balance + amt) ∧
    getAcc (deposit t aid amt s).2.accounts aid = some
      { processAccount t acc with
        balance := (processAccount t acc).balance + amt,
        transactions := (processAccount t acc).transactions ++
          [⟨t, "deposit", amt, none, false, none, none⟩] } := by
  have hgd : getAcc (processCashbacks t s).accounts aid = some (processAccount t acc) := by
    rw [getAcc_processCashbacks, hg]
    rfl
  have hmd : (processAccount t acc).mergedAt.isSome = false := by
    rw [processAccount_mergedAt, hm]
    rfl
  simp only [deposit]
  rw [hgd]
  dsimp only
  rw [if_neg (by rw [hmd]; simp)]
  exact ⟨rfl, by rw [getAcc_updAcc_self]⟩

/-- C10 witness: depositing −200 into the account with post-drain balance
107 succeeds and returns the negative balance −93. -/
theorem deposit_accepts_negative_amounts_witness :
    (deposit 10 "A" (-200) cexState).1 = some (-93) := by
  have h := deposit_accepts_negative_amounts cexState 10 "A" (-200)
    ⟨100, [⟨5, "cashback", 7, some "payment1", false, none, none⟩], 1, none⟩ rfl rfl
  exact h.1.trans (by decide)
